import Mathlib

/-!
Shallow embedding of the pyFPP client (fpp_classes.py) and proofs about it.

Modelling conventions:
* Decoded JSON values (the output of Python's `json` module) are the
  inductive `Json`.  JSON numbers are modelled as `Int`; no behaviour
  verified here touches fractional numbers.
* A Python exception is a value of `PyError`: `api` is the library's own
  `FalconPlayerApiException`, while `keyError`, `typeError` and
  `attributeError` are the corresponding built-in Python exceptions.
  Fallible code returns `Except PyError _`.
* The network is an oracle: `NetOutcome` is what a single call to
  `requests.request` produces (either a raised `RequestException` or an
  `HttpResponse` whose `body` is `some j` when the body decodes as JSON
  `j` and `none` when `response.json()` raises).  Every function that
  performs one HTTP request takes the oracle value as an extra argument
  and also returns the list of requests it issued (`RequestRecord`),
  so "how many requests were sent, and with which configuration" is
  observable in theorems.
-/

namespace FPP

/-- Decoded JSON values, as produced by Python's `json.loads`. -/
inductive Json where
  | null : Json
  | bool : Bool → Json
  | num : Int → Json
  | str : String → Json
  | arr : List Json → Json
  | obj : List (String × Json) → Json

/-- Python exceptions that the embedded code can raise. -/
inductive PyError where
  | api : String → PyError            -- FalconPlayerApiException(message)
  | keyError : String → PyError       -- KeyError(key)
  | typeError : String → PyError      -- TypeError(message)
  | attributeError : String → PyError -- AttributeError(message)
deriving DecidableEq

/-- Python truthiness of a decoded JSON value (`bool(x)`). -/
def Json.truthy : Json → Bool
  | .null => false
  | .bool b => b
  | .num n => decide (n ≠ 0)
  | .str s => !s.isEmpty
  | .arr l => !l.isEmpty
  | .obj kvs => !kvs.isEmpty

mutual
/-- Python `repr` of a decoded JSON value (escaping inside string
literals is elided; nothing verified here depends on it). -/
def Json.pyRepr : Json → String
  | .null => "None"
  | .bool true => "True"
  | .bool false => "False"
  | .num n => toString n
  | .str s => "\'" ++ s ++ "\'"
  | .arr l => "[" ++ Json.pyReprList l ++ "]"
  | .obj kvs => "\x7b" ++ Json.pyReprObj kvs ++ "\x7d"

/-- Comma-separated `repr`s of list elements. -/
def Json.pyReprList : List Json → String
  | [] => ""
  | [j] => Json.pyRepr j
  | j :: rest => Json.pyRepr j ++ ", " ++ Json.pyReprList rest

/-- Comma-separated `key: value` `repr`s of dict entries. -/
def Json.pyReprObj : List (String × Json) → String
  | [] => ""
  | [kv] => "\'" ++ kv.1 ++ "\': " ++ Json.pyRepr kv.2
  | kv :: rest => "\'" ++ kv.1 ++ "\': " ++ Json.pyRepr kv.2 ++ ", " ++ Json.pyReprObj rest
end

/-- Python `str` of a decoded JSON value: the string itself for strings,
`repr` otherwise. -/
def Json.pyStr : Json → String
  | .str s => s
  | j => j.pyRepr

/-- First-match lookup in a decoded dict (Python dicts have unique keys). -/
def pyLookup : List (String × Json) → String → Option Json
  | [], _ => none
  | (k, v) :: rest, key => if k = key then some v else pyLookup rest key

/-- Python subscript `j[key]` with a string key: dict lookup, `KeyError`
when the key is missing, `TypeError` on non-dicts. -/
def Json.index : Json → String → Except PyError Json
  | .obj kvs, key =>
    match pyLookup kvs key with
    | some v => .ok v
    | none => .error (.keyError key)
  | .arr _, _ => .error (.typeError "list indices must be integers")
  | _, _ => .error (.typeError "object is not subscriptable")

/-- Python iteration `for x in j`: lists yield elements, dicts yield keys,
strings yield characters, anything else raises `TypeError`. -/
def Json.iter : Json → Except PyError (List Json)
  | .arr l => .ok l
  | .obj kvs => .ok (kvs.map fun kv => .str kv.1)
  | .str s => .ok (s.toList.map fun c => .str (String.singleton c))
  | _ => .error (.typeError "object is not iterable")

/-- Python `j.keys()`: only dicts have it. -/
def Json.keys : Json → Except PyError (List String)
  | .obj kvs => .ok (kvs.map Prod.fst)
  | _ => .error (.attributeError "keys")

/-- Boolean prefix test on character lists. -/
def listIsPrefix : List Char → List Char → Bool
  | [], _ => true
  | _ :: _, [] => false
  | a :: as, b :: bs => if a = b then listIsPrefix as bs else false

/-- Boolean substring test on character lists. -/
def hasSublist (pat : List Char) : List Char → Bool
  | [] => pat.isEmpty
  | c :: rest => listIsPrefix pat (c :: rest) || hasSublist pat rest

/-- Python `s.find(sub) >= 0`: unanchored, case-sensitive containment. -/
def pyContains (s sub : String) : Bool := hasSublist sub.toList s.toList

/-- Python `j == s` for a decoded JSON value against a `str`: true exactly
for the equal string (no other decoded value compares equal to a str). -/
def pyEqStr (j : Json) (s : String) : Bool :=
  match j with
  | .str t => decide (t = s)
  | _ => false

/-- One endpoint record (class FalconPlayerApiEndpoint, fpp_classes.py:63).
`path` and `description` hold whatever JSON values the catalog carried. -/
structure FalconPlayerApiEndpoint where
  path : Json
  description : Json
  params : Option Json
  method : String

/-- One HTTP request as issued by `requests.request` inside `_do`
(fpp_classes.py:173), recording the configuration it was sent with. -/
structure RequestRecord where
  method : String
  url : String
  api_key : String
  params : Option Json
  body : Option Json
  timeout : Option Int

/-- What one call to `requests.request` produced: a raised
`RequestException`, or a response (with decoded body when valid JSON). -/
structure HttpResponse where
  status_code : Int
  reason : String
  body : Option Json

inductive NetOutcome where
  | exn : NetOutcome
  | response : HttpResponse → NetOutcome

/-- class FalconPlayerApiResult (fpp_classes.py:105). -/
structure FalconPlayerApiResult where
  status_code : Int
  message : String
  data : Json

/-- `FalconPlayerApiResult.__init__` (fpp_classes.py:106-115):
`int(status_code)`, `str(message)`, and `data if data else []` —
an absent or falsy payload becomes the empty list. -/
def FalconPlayerApiResult.make (status_code : Int) (message : String)
    (data : Option Json) : FalconPlayerApiResult :=
  { status_code := status_code
    message := message
    data := match data with
      | some d => if d.truthy then d else .arr []
      | none => .arr [] }

/-- class FalconPlayerRestAdapter (fpp_classes.py:124). -/
structure FalconPlayerRestAdapter where
  url : String
  api_key : String
  ssl_verify : Bool
  timeout : Option Int

/-- `FalconPlayerRestAdapter.__init__` (fpp_classes.py:125-147):
`url = "http://{}/api/".format(hostname)`. -/
def FalconPlayerRestAdapter.make (hostname api_key : String)
    (ssl_verify : Bool) (timeout : Option Int) : FalconPlayerRestAdapter :=
  { url := "http://" ++ hostname ++ "/api/"
    api_key := api_key
    ssl_verify := ssl_verify
    timeout := timeout }

/-- `FalconPlayerRestAdapter._do` (fpp_classes.py:149-205): issue one
request; `RequestException` → "Request failed"; body not valid JSON →
"Invalid JSON in response"; then `299 >= status_code >= 200` decides
between a successful `FalconPlayerApiResult` and
`"{}: {}".format(status_code, reason)`. -/
def FalconPlayerRestAdapter._do (self : FalconPlayerRestAdapter)
    (http_method endpoint : String) (endpoint_params data : Option Json)
    (outcome : NetOutcome) :
    Except PyError FalconPlayerApiResult × List RequestRecord :=
  let full_url := self.url ++ endpoint
  let reqs : List RequestRecord :=
    [{ method := http_method, url := full_url, api_key := self.api_key,
       params := endpoint_params, body := data, timeout := self.timeout }]
  let result : Except PyError FalconPlayerApiResult :=
    match outcome with
    | .exn => .error (.api "Request failed")
    | .response r =>
      match r.body with
      | none => .error (.api "Invalid JSON in response")
      | some data_out =>
        if 299 ≥ r.status_code ∧ r.status_code ≥ 200 then
          .ok (FalconPlayerApiResult.make r.status_code r.reason (some data_out))
        else
          .error (.api (toString r.status_code ++ ": " ++ r.reason))
  (result, reqs)

/-- `FalconPlayerRestAdapter.get` (fpp_classes.py:209-216). -/
def FalconPlayerRestAdapter.get (self : FalconPlayerRestAdapter)
    (endpoint : String) (endpoint_params : Option Json) (outcome : NetOutcome) :
    Except PyError FalconPlayerApiResult × List RequestRecord :=
  self._do "GET" endpoint endpoint_params none outcome

/-- `FalconPlayerRestAdapter.post` (fpp_classes.py:220-232). -/
def FalconPlayerRestAdapter.post (self : FalconPlayerRestAdapter)
    (endpoint : String) (endpoint_params data : Option Json) (outcome : NetOutcome) :
    Except PyError FalconPlayerApiResult × List RequestRecord :=
  self._do "POST" endpoint endpoint_params data outcome

/-- `FalconPlayerRestAdapter.delete` (fpp_classes.py:236-249). -/
def FalconPlayerRestAdapter.delete (self : FalconPlayerRestAdapter)
    (endpoint : String) (endpoint_params data : Option Json) (outcome : NetOutcome) :
    Except PyError FalconPlayerApiResult × List RequestRecord :=
  self._do "DELETE" endpoint endpoint_params data outcome

/-- Python `setattr` on an attribute table: overwrite in place or append. -/
def setattr (attrs : List (String × Json)) (key : String) (v : Json) :
    List (String × Json) :=
  match attrs with
  | [] => [(key, v)]
  | (k, w) :: rest => if k = key then (key, v) :: rest else (k, w) :: setattr rest key v

/-- class System (fpp_classes.py:27): its instance attribute table.  The
class-level annotations (HostName, Mode, ...) create no attributes; only
`__init__` does. -/
structure System where
  attrs : List (String × Json)

/-- `System.__init__` (fpp_classes.py:53-55): `setattr(self, key, value)`
for every key of `**kwargs`, in order. -/
def System.init (kwargs : List (String × Json)) : System :=
  ⟨kwargs.foldl (fun a kv => setattr a kv.1 kv.2) []⟩

/-- Python `getattr(s, key, None)`-style view of the attribute table:
`none` when the attribute was never assigned. -/
def System.getattr (s : System) (key : String) : Option Json :=
  pyLookup s.attrs key

/-- class FalconPlayer (fpp_classes.py:254): the fields `__init__` keeps
(the logger carries no verified behaviour and is omitted from the state). -/
structure FalconPlayer where
  ip : String
  system : System
  timeout : Option Int

/-- `FalconPlayer.connect` (fpp_classes.py:268-286).  `logger` is the
optional argument (default `None` in the source); the body calls
`logger.debug(...)` unconditionally, so a `None` logger raises
`AttributeError` before the request.  `System(**fpp_response.data)`
requires the payload to be a mapping, else Python raises `TypeError`. -/
def FalconPlayer.connect (ip : String) (timeout : Option Int)
    (logger : Option Unit) (outcome : NetOutcome) : Except PyError FalconPlayer :=
  let fpp_api := FalconPlayerRestAdapter.make ip "" true timeout
  match logger with
  | none => .error (.attributeError "NoneType object has no attribute debug")
  | some _ =>
    match (fpp_api.get "system/info" none outcome).1 with
    | .error e => .error e
    | .ok fpp_response =>
      match fpp_response.data with
      | .obj kvs => .ok ⟨ip, System.init kvs, timeout⟩
      | _ => .error (.typeError "argument after ** must be a mapping")

/-- Inner loop of `FalconPlayer.get_endpoints` (fpp_classes.py:310-320):
`for method_key in endpoint_method_keys`, re-reading
`endpoint["methods"][method_key]["desc"]` each iteration and appending
one `FalconPlayerApiEndpoint` to the accumulator. -/
def methodsLoop (ep endpoint_path : Json) (acc : List FalconPlayerApiEndpoint) :
    List String → Except PyError (List FalconPlayerApiEndpoint)
  | [] => .ok acc
  | method_key :: rest =>
    match ep.index "methods" with
    | .error e => .error e
    | .ok methods =>
      match methods.index method_key with
      | .error e => .error e
      | .ok mval =>
        match mval.index "desc" with
        | .error e => .error e
        | .ok endpoint_desc =>
          methodsLoop ep endpoint_path
            (acc ++ [⟨endpoint_path, endpoint_desc, none, method_key⟩]) rest

/-- Outer loop of `FalconPlayer.get_endpoints` (fpp_classes.py:301-320):
`for endpoint in fpp_response.data["endpoints"]`, keeping an entry when
`str(endpoint_path).find(endpoint_filter) >= 0`. -/
def entriesLoop (endpoint_filter : String) (acc : List FalconPlayerApiEndpoint) :
    List Json → Except PyError (List FalconPlayerApiEndpoint)
  | [] => .ok acc
  | ep :: rest =>
    match ep.index "endpoint" with
    | .error e => .error e
    | .ok endpoint_path =>
      if pyContains endpoint_path.pyStr endpoint_filter then
        match ep.index "methods" with
        | .error e => .error e
        | .ok methods =>
          match methods.keys with
          | .error e => .error e
          | .ok method_keys =>
            match methodsLoop ep endpoint_path acc method_keys with
            | .error e => .error e
            | .ok acc2 => entriesLoop endpoint_filter acc2 rest
      else entriesLoop endpoint_filter acc rest

/-- `FalconPlayer.get_endpoints` (fpp_classes.py:288-322): GET
`endpoints.json` through a fresh adapter, then flatten
`data["endpoints"]` with the two loops above. -/
def FalconPlayer.get_endpoints (self : FalconPlayer) (endpoint_filter : String)
    (outcome : NetOutcome) : Except PyError (List FalconPlayerApiEndpoint) :=
  let fpp_api_query := FalconPlayerRestAdapter.make self.ip "" true self.timeout
  match (fpp_api_query.get "endpoints.json" none outcome).1 with
  | .error e => .error e
  | .ok fpp_response =>
    match fpp_response.data.index "endpoints" with
    | .error e => .error e
    | .ok eps =>
      match eps.iter with
      | .error e => .error e
      | .ok items => entriesLoop endpoint_filter [] items

/-- `FalconPlayer.get_endpoint_detail` (fpp_classes.py:324-337): list with
`endpoint_filter = endpoint_path`, keep exact-path matches, `None` when
nothing matched. -/
def FalconPlayer.get_endpoint_detail (self : FalconPlayer) (endpoint_path : String)
    (outcome : NetOutcome) : Except PyError (Option (List FalconPlayerApiEndpoint)) :=
  match self.get_endpoints endpoint_path outcome with
  | .error e => .error e
  | .ok endpoints =>
    let matching_endpoints := endpoints.filter (fun e => pyEqStr e.path endpoint_path)
    .ok (if matching_endpoints.length > 0 then some matching_endpoints else none)

/-- `FalconPlayer.run_endpoint` (fpp_classes.py:339-355): dispatch on the
method string; anything outside GET/POST/DELETE raises the library
exception (whose message in the source is "Invalid JSON in response")
without issuing a request. -/
def FalconPlayer.run_endpoint (self : FalconPlayer) (endpoint_path : String)
    (endpoint_params endpoint_data : Option Json) (endpoint_method : String)
    (outcome : NetOutcome) :
    Except PyError FalconPlayerApiResult × List RequestRecord :=
  let fpp_api_adapter := FalconPlayerRestAdapter.make self.ip "" true self.timeout
  if endpoint_method = "GET" then
    fpp_api_adapter.get endpoint_path endpoint_params outcome
  else if endpoint_method = "POST" then
    fpp_api_adapter.post endpoint_path endpoint_params endpoint_data outcome
  else if endpoint_method = "DELETE" then
    fpp_api_adapter.delete endpoint_path endpoint_params endpoint_data outcome
  else
    (.error (.api "Invalid JSON in response"), [])

/-! Spec-level view of a catalog response (spec.md section 6: `GET
endpoints.json` returns `{ endpoints: [ { endpoint: <path>, methods: {
<METHOD>: { desc: <string> } } } ] }`), used to state the flattening
claims. -/

/-- One well-formed catalog entry: a path and its (method, description)
pairs in encounter order. -/
structure CatalogEntry where
  path : String
  methods : List (String × String)

/-- The JSON encoding of one well-formed catalog entry. -/
def encodeEntry (e : CatalogEntry) : Json :=
  .obj [("endpoint", .str e.path),
        ("methods", .obj (e.methods.map fun md => (md.1, .obj [("desc", .str md.2)])))]

/-- The JSON encoding of a well-formed catalog response. -/
def encodeCatalog (c : List CatalogEntry) : Json :=
  .obj [("endpoints", .arr (c.map encodeEntry))]

/-- Spec-side flattening: one record per (path, method) occurrence, in
catalog encounter order. -/
def flattenCatalog (c : List CatalogEntry) : List FalconPlayerApiEndpoint :=
  (c.map fun e => e.methods.map fun md =>
    ⟨.str e.path, .str md.2, none, md.1⟩).flatten

/-- The spec's reference semantics for endpoint detail (spec.md 4.2:
"behavior must be identical to filtering the unfiltered full list by
exact path"): take the full unfiltered listing, keep exact-path matches,
absent when nothing matched. -/
def FalconPlayer.get_endpoint_detail_spec (self : FalconPlayer)
    (endpoint_path : String) (outcome : NetOutcome) :
    Except PyError (Option (List FalconPlayerApiEndpoint)) :=
  match self.get_endpoints "" outcome with
  | .error e => .error e
  | .ok endpoints =>
    let matching := endpoints.filter (fun e => pyEqStr e.path endpoint_path)
    .ok (if matching.length > 0 then some matching else none)

/-! Helper lemmas. -/

theorem listStartsWith_iff (pat : List Char) :
    ∀ s : List Char, listIsPrefix pat s = true ↔ ∃ t, s = pat ++ t := by
  induction pat with
  | nil =>
    intro s
    simp [listIsPrefix]
  | cons a as ih =>
    intro s
    cases s with
    | nil =>
      simp [listIsPrefix]
    | cons b bs =>
      by_cases hab : a = b
      · subst hab
        simp [listIsPrefix, ih bs]
      · simp only [listIsPrefix, if_neg hab, List.cons_append, List.cons.injEq]
        constructor
        · intro h; exact absurd h (by simp)
        · rintro ⟨t, hb, -⟩; exact absurd hb.symm hab

theorem hasSublist_iff (pat : List Char) :
    ∀ s : List Char, hasSublist pat s = true ↔ ∃ t u, s = t ++ pat ++ u := by
  intro s
  induction s with
  | nil =>
    simp only [hasSublist, List.isEmpty_iff]
    constructor
    · rintro rfl; exact ⟨[], [], rfl⟩
    · rintro ⟨t, u, h⟩
      rcases List.append_eq_nil.mp h.symm with ⟨h1, h2⟩
      exact (List.append_eq_nil.mp h1).2
  | cons c cs ih =>
    simp only [hasSublist, Bool.or_eq_true, listStartsWith_iff, ih]
    constructor
    · rintro (⟨t, ht⟩ | ⟨t, u, h⟩)
      · exact ⟨[], t, by simpa using ht⟩
      · exact ⟨c :: t, u, by simp [h]⟩
    · rintro ⟨t, u, h⟩
      cases t with
      | nil => exact Or.inl ⟨u, by simpa using h⟩
      | cons x ts =>
        simp only [List.cons_append, List.cons.injEq] at h
        exact Or.inr ⟨ts, u, h.2⟩

theorem pyContains_iff (s sub : String) :
    pyContains s sub = true ↔ ∃ t u, s.toList = t ++ sub.toList ++ u :=
  hasSublist_iff sub.toList s.toList

theorem pyContains_empty (s : String) : pyContains s "" = true := by
  rw [pyContains_iff]
  exact ⟨[], s.toList, by simp⟩

theorem pyContains_refl (s : String) : pyContains s s = true := by
  rw [pyContains_iff]
  exact ⟨[], [], by simp⟩

theorem pyLookup_eq_none_of_not_mem {l : List (String × Json)} {k : String}
    (h : k ∉ l.map Prod.fst) : pyLookup l k = none := by
  induction l with
  | nil => rfl
  | cons kv rest ih =>
    obtain ⟨k1, v1⟩ := kv
    simp only [List.map_cons, List.mem_cons] at h
    push_neg at h
    have hk : k1 ≠ k := by
      intro e
      exact h.1 e.symm
    rw [pyLookup, if_neg hk]
    exact ih h.2

theorem pyLookup_setattr (attrs : List (String × Json)) (k0 : String) (v0 : Json)
    (k : String) :
    pyLookup (setattr attrs k0 v0) k = if k0 = k then some v0 else pyLookup attrs k := by
  induction attrs with
  | nil => simp [setattr, pyLookup]
  | cons kv rest ih =>
    obtain ⟨k1, w⟩ := kv
    by_cases h10 : k1 = k0
    · subst h10
      simp only [setattr, if_pos rfl, pyLookup]
      by_cases h0k : k1 = k
      · simp [h0k]
      · simp [h0k, pyLookup]
    · simp only [setattr, if_neg h10, pyLookup]
      by_cases h1k : k1 = k
      · subst h1k
        have : k0 ≠ k1 := fun e => h10 e.symm
        simp [this, pyLookup]
      · simp only [if_neg h1k, ih]

theorem foldl_setattr_pyLookup :
    ∀ (kwargs acc : List (String × Json)) (k : String),
      (kwargs.map Prod.fst).Nodup →
      pyLookup (kwargs.foldl (fun a kv => setattr a kv.1 kv.2) acc) k
        = (pyLookup kwargs k).or (pyLookup acc k) := by
  intro kwargs
  induction kwargs with
  | nil => intro acc k _; simp [pyLookup]
  | cons kv tl ih =>
    intro acc k hnd
    obtain ⟨k0, v0⟩ := kv
    simp only [List.map_cons, List.nodup_cons] at hnd
    simp only [List.foldl_cons, ih _ _ hnd.2, pyLookup_setattr, pyLookup]
    by_cases h0k : k0 = k
    · subst h0k
      rw [pyLookup_eq_none_of_not_mem hnd.1]
      simp
    · simp [h0k]

/-- The only records `methodsLoop` can reach the accumulator with carry the
entry's own path. -/
theorem methodsLoop_acc (ep path : Json) :
    ∀ (ks : List String) (acc : List FalconPlayerApiEndpoint),
      methodsLoop ep path acc ks
        = (methodsLoop ep path [] ks).map (fun l => acc ++ l) := by
  intro ks
  induction ks with
  | nil => intro acc; simp [methodsLoop, Except.map]
  | cons k rest ih =>
    intro acc
    simp only [methodsLoop]
    split
    · rfl
    · split
      · rfl
      · split
        · rfl
        · rw [List.nil_append, ih]
          conv_rhs => rw [ih]
          cases methodsLoop ep path [] rest with
          | error e => rfl
          | ok l => simp [Except.map]

theorem entriesLoop_acc (F : String) :
    ∀ (items : List Json) (acc : List FalconPlayerApiEndpoint),
      entriesLoop F acc items
        = (entriesLoop F [] items).map (fun l => acc ++ l) := by
  intro items
  induction items with
  | nil => intro acc; simp [entriesLoop, Except.map]
  | cons ep rest ih =>
    intro acc
    simp only [entriesLoop]
    split
    · rfl
    · split
      · split
        · rfl
        · split
          · rfl
          · rw [methodsLoop_acc]
            cases methodsLoop _ _ [] _ with
            | error e => rfl
            | ok recs =>
              simp only [Except.map, List.nil_append]
              rw [ih, ih recs]
              cases entriesLoop F [] rest with
              | error e => rfl
              | ok l => simp [Except.map]
      · exact ih acc

theorem methodsLoop_path (ep path : Json) :
    ∀ (ks : List String) (l : List FalconPlayerApiEndpoint),
      methodsLoop ep path [] ks = .ok l → ∀ r ∈ l, r.path = path := by
  intro ks
  induction ks with
  | nil =>
    intro l h r hr
    simp only [methodsLoop] at h
    cases h
    cases hr
  | cons k rest ih =>
    intro l h r hr
    simp only [methodsLoop] at h
    split at h
    · cases h
    · split at h
      · cases h
      · split at h
        · cases h
        · rw [methodsLoop_acc] at h
          cases hrest : methodsLoop ep path [] rest with
          | error e => rw [hrest] at h; cases h
          | ok l2 =>
            rw [hrest] at h
            simp only [Except.map, List.nil_append] at h
            cases h
            rcases List.mem_append.mp hr with h1 | h2
            · simp only [List.mem_singleton] at h1
              rw [h1]
            · exact ih l2 hrest r h2

/-- Looking a method key up in an encoded methods dict finds its own
description, provided the method names are distinct (decoded Python
dicts always have distinct keys). -/
theorem pyLookup_map_desc :
    ∀ (ms : List (String × String)) (k d : String),
      (ms.map Prod.fst).Nodup → (k, d) ∈ ms →
      pyLookup (ms.map fun md => (md.1, Json.obj [("desc", Json.str md.2)])) k
        = some (.obj [("desc", .str d)]) := by
  intro ms
  induction ms with
  | nil => intro k d _ hm; cases hm
  | cons md tl ih =>
    intro k d hnd hm
    obtain ⟨k0, d0⟩ := md
    simp only [List.map_cons, List.nodup_cons] at hnd
    simp only [List.map_cons, pyLookup]
    rcases List.mem_cons.mp hm with h1 | h2
    · injection h1 with e1 e2
      subst e1
      subst e2
      rw [if_pos rfl]
    · have hk : k0 ≠ k := by
        intro e
        subst e
        exact hnd.1 (List.mem_map.mpr ⟨(k0, d), h2, rfl⟩)
      rw [if_neg hk]
      exact ih k d hnd.2 h2

/-- Running the inner methods loop over an encoded entry produces one
record per (method, desc) pair, in order. -/
theorem methodsLoop_encode (e : CatalogEntry) :
    ∀ (ms : List (String × String)) (acc : List FalconPlayerApiEndpoint),
      (∀ p ∈ ms,
        pyLookup (e.methods.map fun md => (md.1, Json.obj [("desc", Json.str md.2)])) p.1
          = some (.obj [("desc", .str p.2)])) →
      methodsLoop (encodeEntry e) (.str e.path) acc (ms.map Prod.fst)
        = .ok (acc ++ ms.map fun md => ⟨.str e.path, .str md.2, none, md.1⟩) := by
  intro ms
  induction ms with
  | nil => intro acc _; simp [methodsLoop]
  | cons md tl ih =>
    intro acc h
    obtain ⟨k, d⟩ := md
    have hm : (encodeEntry e).index "methods"
        = .ok (.obj (e.methods.map fun md => (md.1, Json.obj [("desc", Json.str md.2)]))) := rfl
    have hk : (Json.obj (e.methods.map fun md =>
        (md.1, Json.obj [("desc", Json.str md.2)]))).index k
        = .ok (.obj [("desc", .str d)]) := by
      simp [Json.index, h (k, d) (List.mem_cons_self _ _)]
    have hd : (Json.obj [("desc", Json.str d)]).index "desc" = .ok (.str d) := rfl
    simp only [List.map_cons, methodsLoop, hm, hk, hd]
    rw [ih _ (fun p hp => h p (List.mem_cons_of_mem _ hp))]
    simp

/-- Running the outer entries loop over an encoded catalog produces the
spec-side flattening, restricted to the entries whose path passes the
substring filter. -/
theorem entriesLoop_encode :
    ∀ (c : List CatalogEntry) (F : String),
      (∀ e ∈ c, (e.methods.map Prod.fst).Nodup) →
      entriesLoop F [] (c.map encodeEntry)
        = .ok ((flattenCatalog c).filter fun r => pyContains r.path.pyStr F) := by
  intro c
  induction c with
  | nil => intro F _; simp [entriesLoop, flattenCatalog]
  | cons e rest ih =>
    intro F hnd
    have hnde : (e.methods.map Prod.fst).Nodup := hnd e (List.mem_cons_self _ _)
    have hpath : (encodeEntry e).index "endpoint" = .ok (.str e.path) := rfl
    have hm : (encodeEntry e).index "methods"
        = .ok (.obj (e.methods.map fun md => (md.1, Json.obj [("desc", Json.str md.2)]))) := rfl
    have hkeys : (Json.obj (e.methods.map fun md =>
        (md.1, Json.obj [("desc", Json.str md.2)]))).keys
        = .ok (e.methods.map Prod.fst) := by
      simp [Json.keys]
    have hps : (Json.str e.path).pyStr = e.path := rfl
    have hflat : flattenCatalog (e :: rest)
        = (e.methods.map fun md =>
            (⟨.str e.path, .str md.2, none, md.1⟩ : FalconPlayerApiEndpoint))
          ++ flattenCatalog rest := by
      simp [flattenCatalog]
    simp only [List.map_cons, entriesLoop, hpath, hm, hkeys, hps, hflat,
      List.filter_append]
    by_cases hc : pyContains e.path F
    · rw [if_pos hc]
      simp only [methodsLoop_encode e e.methods []
        (fun p hp => pyLookup_map_desc e.methods p.1 p.2 hnde hp), List.nil_append]
      rw [entriesLoop_acc, ih F (fun x hx => hnd x (List.mem_cons_of_mem _ hx))]
      have hkeep : (e.methods.map fun md =>
          (⟨.str e.path, .str md.2, none, md.1⟩ : FalconPlayerApiEndpoint)).filter
            (fun r => pyContains r.path.pyStr F)
          = e.methods.map fun md => ⟨.str e.path, .str md.2, none, md.1⟩ := by
        rw [List.filter_eq_self]
        intro r hr
        obtain ⟨md, hmd, rfl⟩ := List.mem_map.mp hr
        exact hc
      rw [hkeep]
      simp [Except.map]
    · rw [if_neg hc]
      rw [ih F (fun x hx => hnd x (List.mem_cons_of_mem _ hx))]
      have hdrop : (e.methods.map fun md =>
          (⟨.str e.path, .str md.2, none, md.1⟩ : FalconPlayerApiEndpoint)).filter
            (fun r => pyContains r.path.pyStr F) = [] := by
        rw [List.filter_eq_nil_iff]
        intro r hr
        obtain ⟨md, hmd, rfl⟩ := List.mem_map.mp hr
        simp only [hps]
        exact fun hcc => hc hcc
      rw [hdrop]
      simp

/-- When the unfiltered entries loop succeeds, the loop with filter `F`
returns exactly the path-containing subsequence of its result. -/
theorem entriesLoop_filter_of_ok :
    ∀ (items : List Json) (l : List FalconPlayerApiEndpoint) (F : String),
      entriesLoop "" [] items = .ok l →
      entriesLoop F [] items = .ok (l.filter fun r => pyContains r.path.pyStr F) := by
  intro items
  induction items with
  | nil =>
    intro l F h
    simp only [entriesLoop] at h ⊢
    cases h
    rfl
  | cons ep rest ih =>
    intro l F h
    simp only [entriesLoop] at h ⊢
    cases heq1 : ep.index "endpoint" with
    | error e => simp only [heq1] at h; cases h
    | ok path =>
      simp only [heq1] at h ⊢
      rw [pyContains_empty] at h
      rw [if_pos rfl] at h
      cases heq2 : ep.index "methods" with
      | error e => simp only [heq2] at h; cases h
      | ok methods =>
        simp only [heq2] at h ⊢
        cases heq3 : methods.keys with
        | error e => simp only [heq3] at h; cases h
        | ok ks =>
          simp only [heq3] at h ⊢
          cases hml : methodsLoop ep path [] ks with
          | error e => simp only [hml] at h; cases h
          | ok recs =>
            simp only [hml] at h ⊢
            rw [entriesLoop_acc] at h
            cases hrest : entriesLoop "" [] rest with
            | error e => rw [hrest] at h; simp [Except.map] at h
            | ok lrest =>
              rw [hrest] at h
              simp only [Except.map, Except.ok.injEq] at h
              subst h
              have hpaths : ∀ r ∈ recs, r.path = path := methodsLoop_path ep path ks recs hml
              by_cases hc : pyContains path.pyStr F
              · rw [if_pos hc, entriesLoop_acc, ih lrest F hrest]
                have hkeep : recs.filter (fun r => pyContains r.path.pyStr F) = recs := by
                  rw [List.filter_eq_self]
                  intro r hr
                  rw [hpaths r hr]
                  exact hc
                simp [Except.map, List.filter_append, hkeep]
              · rw [if_neg hc, ih lrest F hrest]
                have hdrop : recs.filter (fun r => pyContains r.path.pyStr F) = [] := by
                  rw [List.filter_eq_nil_iff]
                  intro r hr
                  rw [hpaths r hr]
                  exact fun hcc => hc hcc
                simp [List.filter_append, hdrop]

/-- When the unfiltered listing succeeds, `get_endpoints` with filter `F`
returns exactly the path-containing subsequence of its result. -/
theorem get_endpoints_filter_of_ok (fp : FalconPlayer) (outcome : NetOutcome)
    (l : List FalconPlayerApiEndpoint) (F : String)
    (h : fp.get_endpoints "" outcome = .ok l) :
    fp.get_endpoints F outcome = .ok (l.filter fun r => pyContains r.path.pyStr F) := by
  simp only [FalconPlayer.get_endpoints] at h ⊢
  cases hresp : (FalconPlayerRestAdapter.get
      (FalconPlayerRestAdapter.make fp.ip "" true fp.timeout)
      "endpoints.json" none outcome).1 with
  | error e => simp only [hresp] at h; cases h
  | ok resp =>
    simp only [hresp] at h ⊢
    cases hidx : resp.data.index "endpoints" with
    | error e => simp only [hidx] at h; cases h
    | ok eps =>
      simp only [hidx] at h ⊢
      cases hit : eps.iter with
      | error e => simp only [hit] at h; cases h
      | ok items =>
        simp only [hit] at h ⊢
        exact entriesLoop_filter_of_ok items l F h

/-! Claim theorems. -/

/-- C1, counterexample: a 200 response whose body decodes as the JSON
object `{}` (falsy in Python) yields an `ApiResult` whose payload is the
empty list `[]`, not the decoded body `{}` — refuting "the decoded JSON
body as payload" for every decodable body. -/
theorem do_falsy_payload_counterexample :
    ((FalconPlayerRestAdapter.make "fpp.local" "" true (some 3))._do "GET" "system/info"
        none none (.response ⟨200, "OK", some (.obj [])⟩)).1
      = .ok ⟨200, "OK", .arr []⟩ ∧ Json.arr [] ≠ Json.obj [] :=
  ⟨rfl, fun h => Json.noConfusion h⟩

/-- C1 (amended): for every response with status in [200, 299] whose body
decodes as JSON, `_do` returns (does not raise) an `ApiResult` with
exactly that status code and the reason phrase as message; the payload is
the decoded body when that body is truthy, and the empty list when the
decoded body is falsy (empty object/array/string, 0, false or null). -/
theorem do_success_status_reason_payload (a : FalconPlayerRestAdapter)
    (m ep : String) (p d : Option Json) (r : HttpResponse) (body : Json)
    (h1 : r.body = some body) (h2 : 200 ≤ r.status_code) (h3 : r.status_code ≤ 299) :
    (a._do m ep p d (.response r)).1
      = .ok ⟨r.status_code, r.reason, if body.truthy then body else .arr []⟩ := by
  simp only [FalconPlayerRestAdapter._do, h1]
  rw [if_pos ⟨h3, h2⟩]
  rfl

/-- C1 witness: the amended claim at a concrete 204 response. -/
theorem do_success_status_reason_payload_witness :
    ((204:Int) = 204 ∧ (200:Int) ≤ 204 ∧ (204:Int) ≤ 299) ∧
    ((FalconPlayerRestAdapter.make "fpp.local" "" true (some 3))._do "GET" "system/info"
        none none (.response ⟨204, "No Content", some (.obj [("status", .str "ok")])⟩)).1
      = .ok ⟨204, "No Content", .obj [("status", .str "ok")]⟩ := by
  refine ⟨⟨rfl, by norm_num, by norm_num⟩, ?_⟩
  have h := do_success_status_reason_payload
    (FalconPlayerRestAdapter.make "fpp.local" "" true (some 3)) "GET" "system/info"
    none none ⟨204, "No Content", some (.obj [("status", .str "ok")])⟩
    (.obj [("status", .str "ok")]) rfl (by norm_num) (by norm_num)
  rw [h]
  rfl

/-- C4: a response whose body is not valid JSON makes `_do` fail with
exactly "Invalid JSON in response", whatever the status code — the decode
failure wins over the status check. -/
theorem do_invalid_json_any_status (a : FalconPlayerRestAdapter)
    (m ep : String) (p d : Option Json) (r : HttpResponse) (h : r.body = none) :
    (a._do m ep p d (.response r)).1 = .error (.api "Invalid JSON in response") := by
  simp only [FalconPlayerRestAdapter._do, h]

/-- C4 witness: a 404 response with an undecodable body fails with the
decode message, not the status message. -/
theorem do_invalid_json_any_status_witness :
    ({ status_code := 404, reason := "Not Found", body := none } : HttpResponse).body = none ∧
    ((FalconPlayerRestAdapter.make "fpp.local" "" true none)._do "GET" "x" none none
        (.response ⟨404, "Not Found", none⟩)).1
      = .error (.api "Invalid JSON in response") :=
  ⟨rfl, do_invalid_json_any_status (FalconPlayerRestAdapter.make "fpp.local" "" true none)
    "GET" "x" none none ⟨404, "Not Found", none⟩ rfl⟩

/-- C5: a decodable response with status outside [200, 299] fails with
message `"<status>: <reason>"`, and a transport failure fails with
"Request failed"; in both cases exactly one request was attempted (no
retry). -/
theorem do_http_error_and_transport_error (a : FalconPlayerRestAdapter)
    (m ep : String) (p d : Option Json) :
    (∀ (r : HttpResponse) (body : Json), r.body = some body →
      (r.status_code < 200 ∨ 299 < r.status_code) →
      (a._do m ep p d (.response r)).1
          = .error (.api (toString r.status_code ++ ": " ++ r.reason)) ∧
        ((a._do m ep p d (.response r)).2).length = 1) ∧
    ((a._do m ep p d .exn).1 = .error (.api "Request failed") ∧
      ((a._do m ep p d .exn).2).length = 1) := by
  refine ⟨?_, rfl, rfl⟩
  intro r body h1 h2
  have hneg : ¬(299 ≥ r.status_code ∧ r.status_code ≥ 200) := by
    rintro ⟨a1, a2⟩
    rcases h2 with h2 | h2 <;> omega
  constructor
  · simp only [FalconPlayerRestAdapter._do, h1]
    rw [if_neg hneg]
  · rfl

/-- C5 witness: concrete 404 response and concrete transport failure. -/
theorem do_http_error_and_transport_error_witness :
    ({ status_code := 404, reason := "Not Found",
        body := some .null } : HttpResponse).body = some .null ∧
    ((404:Int) < 200 ∨ (299:Int) < 404) ∧
    ((FalconPlayerRestAdapter.make "fpp.local" "" true none)._do "GET" "x" none none
        (.response ⟨404, "Not Found", some .null⟩)).1 = .error (.api "404: Not Found") ∧
    ((FalconPlayerRestAdapter.make "fpp.local" "" true none)._do "GET" "x" none none
        .exn).1 = .error (.api "Request failed") := by
  refine ⟨rfl, Or.inr (by norm_num), ?_, ?_⟩
  · have h := ((do_http_error_and_transport_error
      (FalconPlayerRestAdapter.make "fpp.local" "" true none) "GET" "x" none none).1
      ⟨404, "Not Found", some .null⟩ .null rfl (Or.inr (by norm_num))).1
    rw [h]
    rfl
  · exact (do_http_error_and_transport_error
      (FalconPlayerRestAdapter.make "fpp.local" "" true none) "GET" "x" none none).2.1

/-- C9: every constructed `ApiResult` keeps the given status code and has
a non-null payload; an absent or falsy (empty) payload argument becomes
the empty list. -/
theorem api_result_nonnull_payload (status : Int) (message : String) (d : Option Json) :
    (FalconPlayerApiResult.make status message d).status_code = status ∧
    (FalconPlayerApiResult.make status message d).data ≠ .null ∧
    (d = none → (FalconPlayerApiResult.make status message d).data = .arr []) ∧
    (∀ j, d = some j → j.truthy = false →
      (FalconPlayerApiResult.make status message d).data = .arr []) := by
  refine ⟨rfl, ?_, ?_, ?_⟩
  · cases d with
    | none => exact fun hc => Json.noConfusion hc
    | some j =>
      simp only [FalconPlayerApiResult.make]
      by_cases hj : j.truthy
      · rw [if_pos hj]
        cases j with
        | null => exact absurd hj (by simp [Json.truthy])
        | bool b => exact fun hc => Json.noConfusion hc
        | num n => exact fun hc => Json.noConfusion hc
        | str s => exact fun hc => Json.noConfusion hc
        | arr l => exact fun hc => Json.noConfusion hc
        | obj kvs => exact fun hc => Json.noConfusion hc
      · rw [if_neg hj]
        exact fun hc => Json.noConfusion hc
  · intro h
    subst h
    rfl
  · intro j h hf
    subst h
    simp only [FalconPlayerApiResult.make]
    rw [if_neg (by simp [hf])]

/-- C9 witness: a concrete empty-object payload becomes `[]`, and the
status code is kept. -/
theorem api_result_nonnull_payload_witness :
    (FalconPlayerApiResult.make 200 "OK" (some (Json.obj []))).status_code = 200 ∧
    (FalconPlayerApiResult.make 200 "OK" (some (Json.obj []))).data = .arr [] ∧
    (FalconPlayerApiResult.make 500 "Err" none).data = .arr [] :=
  ⟨(api_result_nonnull_payload 200 "OK" (some (Json.obj []))).1,
   (api_result_nonnull_payload 200 "OK" (some (Json.obj []))).2.2.2 (Json.obj []) rfl rfl,
   (api_result_nonnull_payload 500 "Err" none).2.2.1 rfl⟩

/-- Python equality of a decoded value against a string is exactly
equality with that string value. -/
theorem pyEqStr_iff (j : Json) (s : String) : pyEqStr j s = true ↔ j = .str s := by
  cases j <;> simp [pyEqStr]

/-- C2: on a catalog response, `get_endpoints` with filter `F` returns
exactly the subsequence of the flattened catalog (one record per
(path, method) occurrence, in encounter order) whose path contains `F`;
the empty filter returns the whole flattening; and the containment test
is case-sensitive, unanchored substring matching.  The `Nodup` hypothesis
holds for every decodable response, since Python dict keys are unique. -/
theorem get_endpoints_flattens_catalog (fp : FalconPlayer) (c : List CatalogEntry)
    (F reason : String)
    (hnd : ∀ e ∈ c, (e.methods.map Prod.fst).Nodup) :
    fp.get_endpoints F (.response ⟨200, reason, some (encodeCatalog c)⟩)
      = .ok ((flattenCatalog c).filter fun r => pyContains r.path.pyStr F) ∧
    fp.get_endpoints "" (.response ⟨200, reason, some (encodeCatalog c)⟩)
      = .ok (flattenCatalog c) ∧
    (∀ s sub : String, pyContains s sub = true ↔ ∃ t u, s.toList = t ++ sub.toList ++ u) := by
  have hmain : ∀ G : String,
      fp.get_endpoints G (.response ⟨200, reason, some (encodeCatalog c)⟩)
        = .ok ((flattenCatalog c).filter fun r => pyContains r.path.pyStr G) := by
    intro G
    have hresp : ((FalconPlayerRestAdapter.make fp.ip "" true fp.timeout).get
        "endpoints.json" none (.response ⟨200, reason, some (encodeCatalog c)⟩)).1
        = .ok (FalconPlayerApiResult.make 200 reason (some (encodeCatalog c))) := by
      simp only [FalconPlayerRestAdapter.get, FalconPlayerRestAdapter._do]
      rw [if_pos (by norm_num : (299:Int) ≥ 200 ∧ (200:Int) ≥ 200)]
    have hdata : (FalconPlayerApiResult.make 200 reason (some (encodeCatalog c))).data
        = encodeCatalog c := rfl
    have hidx : (encodeCatalog c).index "endpoints" = .ok (.arr (c.map encodeEntry)) := rfl
    have hit : (Json.arr (c.map encodeEntry)).iter = .ok (c.map encodeEntry) := rfl
    simp only [FalconPlayer.get_endpoints, hresp, hdata, hidx, hit]
    exact entriesLoop_encode c G hnd
  refine ⟨hmain F, ?_, fun s sub => pyContains_iff s sub⟩
  rw [hmain ""]
  congr 1
  rw [List.filter_eq_self]
  intro r _
  exact pyContains_empty r.path.pyStr

/-- C2 witness: the spec's own scenario — one POST endpoint, filter
"reboot" — yields exactly one record. -/
theorem get_endpoints_flattens_catalog_witness :
    (∀ e ∈ [(⟨"/api/system/reboot", [("POST", "Reboot")]⟩ : CatalogEntry)],
      (e.methods.map Prod.fst).Nodup) ∧
    (⟨"192.168.1.10", System.init [], some 3⟩ : FalconPlayer).get_endpoints "reboot"
        (.response ⟨200, "OK",
          some (encodeCatalog [⟨"/api/system/reboot", [("POST", "Reboot")]⟩])⟩)
      = .ok [⟨.str "/api/system/reboot", .str "Reboot", none, "POST"⟩] := by
  refine ⟨by simp, ?_⟩
  have h := (get_endpoints_flattens_catalog
    (⟨"192.168.1.10", System.init [], some 3⟩ : FalconPlayer)
    [⟨"/api/system/reboot", [("POST", "Reboot")]⟩] "reboot" "OK" (by simp)).1
  rw [h]
  rfl

/-- C3, counterexample: on a catalog whose first entry is malformed (its
method entry has no "desc") and does not contain the requested path,
`get_endpoint_detail` succeeds — the substring pre-filter skips the
malformed entry — while the unfiltered full listing (and hence
"filter the unfiltered full list by exact path") raises `KeyError`.
The two behaviours are not identical on this input. -/
theorem get_endpoint_detail_optimization_counterexample :
    ((⟨"fpp.local", System.init [], none⟩ : FalconPlayer).get_endpoint_detail "/api/test"
        (.response ⟨200, "OK", some (Json.obj [("endpoints", Json.arr
          [Json.obj [("endpoint", Json.str "/x"),
             ("methods", Json.obj [("GET", Json.obj [("description", Json.str "oops")])])],
           Json.obj [("endpoint", Json.str "/api/test"),
             ("methods", Json.obj [("GET", Json.obj [("desc", Json.str "Test")])])]])])⟩)
      = .ok (some [⟨.str "/api/test", .str "Test", none, "GET"⟩])) ∧
    ((⟨"fpp.local", System.init [], none⟩ : FalconPlayer).get_endpoint_detail_spec "/api/test"
        (.response ⟨200, "OK", some (Json.obj [("endpoints", Json.arr
          [Json.obj [("endpoint", Json.str "/x"),
             ("methods", Json.obj [("GET", Json.obj [("description", Json.str "oops")])])],
           Json.obj [("endpoint", Json.str "/api/test"),
             ("methods", Json.obj [("GET", Json.obj [("desc", Json.str "Test")])])]])])⟩)
      = .error (.keyError "desc")) ∧
    ((⟨"fpp.local", System.init [], none⟩ : FalconPlayer).get_endpoints ""
        (.response ⟨200, "OK", some (Json.obj [("endpoints", Json.arr
          [Json.obj [("endpoint", Json.str "/x"),
             ("methods", Json.obj [("GET", Json.obj [("description", Json.str "oops")])])],
           Json.obj [("endpoint", Json.str "/api/test"),
             ("methods", Json.obj [("GET", Json.obj [("desc", Json.str "Test")])])]])])⟩)
      = .error (.keyError "desc")) :=
  ⟨rfl, rfl, rfl⟩

/-- C3 (amended): whenever the unfiltered listing succeeds,
`get_endpoint_detail P` agrees with the spec's reference semantics
(filter the full unfiltered listing by exact path equality, absent when
nothing matches): it returns exactly the records whose path equals `P`
character for character, and `none` when no path equals `P`, even if
substring matches exist. -/
theorem get_endpoint_detail_exact (fp : FalconPlayer) (P : String)
    (outcome : NetOutcome) (l : List FalconPlayerApiEndpoint)
    (h : fp.get_endpoints "" outcome = .ok l) :
    fp.get_endpoint_detail P outcome = fp.get_endpoint_detail_spec P outcome ∧
    fp.get_endpoint_detail P outcome
      = .ok (if (l.filter fun r => pyEqStr r.path P).length > 0
          then some (l.filter fun r => pyEqStr r.path P) else none) := by
  have hff : (l.filter fun r => pyContains r.path.pyStr P).filter
      (fun r => pyEqStr r.path P) = l.filter fun r => pyEqStr r.path P := by
    rw [List.filter_filter]
    apply List.filter_congr
    intro r _
    by_cases he : pyEqStr r.path P = true
    · rw [he]
      have : r.path = .str P := (pyEqStr_iff r.path P).mp he
      rw [this]
      have : pyContains P P = true := pyContains_refl P
      simp only [Json.pyStr, this, Bool.true_and]
    · rw [Bool.not_eq_true] at he
      rw [he]
      simp
  have hdet : fp.get_endpoint_detail P outcome
      = .ok (if (l.filter fun r => pyEqStr r.path P).length > 0
          then some (l.filter fun r => pyEqStr r.path P) else none) := by
    have hfil := get_endpoints_filter_of_ok fp outcome l P h
    simp only [FalconPlayer.get_endpoint_detail, hfil, hff]
  have hspec : fp.get_endpoint_detail_spec P outcome
      = .ok (if (l.filter fun r => pyEqStr r.path P).length > 0
          then some (l.filter fun r => pyEqStr r.path P) else none) := by
    simp only [FalconPlayer.get_endpoint_detail_spec, h]
  exact ⟨hdet.trans hspec.symm, hdet⟩

/-- C3 witness: a catalog containing only "/api/tests" — a proper
superstring of the requested path — yields an absent result for
"/api/test". -/
theorem get_endpoint_detail_exact_witness :
    (⟨"fpp.local", System.init [], none⟩ : FalconPlayer).get_endpoints ""
        (.response ⟨200, "OK", some (Json.obj [("endpoints", Json.arr
          [Json.obj [("endpoint", Json.str "/api/tests"),
             ("methods", Json.obj [("GET", Json.obj [("desc", Json.str "T")])])]])])⟩)
      = .ok [⟨.str "/api/tests", .str "T", none, "GET"⟩] ∧
    (⟨"fpp.local", System.init [], none⟩ : FalconPlayer).get_endpoint_detail "/api/test"
        (.response ⟨200, "OK", some (Json.obj [("endpoints", Json.arr
          [Json.obj [("endpoint", Json.str "/api/tests"),
             ("methods", Json.obj [("GET", Json.obj [("desc", Json.str "T")])])]])])⟩)
      = .ok none := by
  refine ⟨rfl, ?_⟩
  have h := (get_endpoint_detail_exact (⟨"fpp.local", System.init [], none⟩ : FalconPlayer)
    "/api/test"
    (.response ⟨200, "OK", some (Json.obj [("endpoints", Json.arr
      [Json.obj [("endpoint", Json.str "/api/tests"),
         ("methods", Json.obj [("GET", Json.obj [("desc", Json.str "T")])])]])])⟩)
    [⟨.str "/api/tests", .str "T", none, "GET"⟩] rfl).2
  rw [h]
  rfl

/-- C6: `run_endpoint` with a method outside {GET, POST, DELETE} fails
with the library exception and issues no HTTP request at all; with a
method in that set it issues exactly one request, to
`http://<ip>/api/<path>` with the handle's timeout (and an empty API
key). -/
theorem run_endpoint_method_validation (fp : FalconPlayer) (path : String)
    (params data : Option Json) (m : String) (outcome : NetOutcome) :
    (m ∉ (["GET", "POST", "DELETE"] : List String) →
      fp.run_endpoint path params data m outcome
        = (.error (.api "Invalid JSON in response"), [])) ∧
    (m ∈ (["GET", "POST", "DELETE"] : List String) →
      ∃ req : RequestRecord,
        (fp.run_endpoint path params data m outcome).2 = [req] ∧
        req.url = "http://" ++ fp.ip ++ "/api/" ++ path ∧
        req.timeout = fp.timeout ∧
        req.api_key = "" ∧
        req.method = m) := by
  constructor
  · intro hm
    have h1 : ¬(m = "GET") := fun e => hm (by rw [e]; simp)
    have h2 : ¬(m = "POST") := fun e => hm (by rw [e]; simp)
    have h3 : ¬(m = "DELETE") := fun e => hm (by rw [e]; simp)
    simp only [FalconPlayer.run_endpoint, if_neg h1, if_neg h2, if_neg h3]
  · intro hm
    simp only [List.mem_cons, List.mem_singleton, List.not_mem_nil, or_false] at hm
    rcases hm with rfl | rfl | rfl
    · exact ⟨_, rfl, rfl, rfl, rfl, rfl⟩
    · exact ⟨_, rfl, rfl, rfl, rfl, rfl⟩
    · exact ⟨_, rfl, rfl, rfl, rfl, rfl⟩

/-- C6 witness: the spec's scenario — method "PATCH" fails with the
library error and zero requests issued; "GET" issues exactly one. -/
theorem run_endpoint_method_validation_witness :
    ("PATCH" : String) ∉ (["GET", "POST", "DELETE"] : List String) ∧
    (⟨"192.168.1.10", System.init [], some 3⟩ : FalconPlayer).run_endpoint
        "system/reboot" none none "PATCH" .exn
      = (.error (.api "Invalid JSON in response"), []) ∧
    ("GET" : String) ∈ (["GET", "POST", "DELETE"] : List String) ∧
    ((⟨"192.168.1.10", System.init [], some 3⟩ : FalconPlayer).run_endpoint
        "system/reboot" none none "GET" .exn).2.length = 1 := by
  refine ⟨by simp, ?_, by simp, ?_⟩
  · exact (run_endpoint_method_validation
      (⟨"192.168.1.10", System.init [], some 3⟩ : FalconPlayer)
      "system/reboot" none none "PATCH" .exn).1 (by simp)
  · obtain ⟨req, hreq, -⟩ := (run_endpoint_method_validation
      (⟨"192.168.1.10", System.init [], some 3⟩ : FalconPlayer)
      "system/reboot" none none "GET" .exn).2 (by simp)
    rw [hreq]
    rfl

/-- C7: constructing the device snapshot from a decoded `system/info`
object binds every key of the object to the attribute of the same name,
and leaves every other attribute absent (`none`) rather than failing;
the `Nodup` hypothesis holds for every decoded Python dict. -/
theorem system_init_maps_keys (kwargs : List (String × Json))
    (hnd : (kwargs.map Prod.fst).Nodup) (k : String) :
    (System.init kwargs).getattr k = pyLookup kwargs k := by
  simp only [System.init, System.getattr]
  rw [foldl_setattr_pyLookup kwargs [] k hnd]
  simp [pyLookup]

/-- C7 witness: the spec's round-trip — {HostName: "fpp1", Mode: "player"}
binds exactly those two attributes and leaves e.g. Version absent. -/
theorem system_init_maps_keys_witness :
    (System.init [("HostName", .str "fpp1"), ("Mode", .str "player")]).getattr "HostName"
        = some (.str "fpp1") ∧
    (System.init [("HostName", .str "fpp1"), ("Mode", .str "player")]).getattr "Mode"
        = some (.str "player") ∧
    (System.init [("HostName", .str "fpp1"), ("Mode", .str "player")]).getattr "Version"
        = none := by
  have h := fun k => system_init_maps_keys
    [("HostName", .str "fpp1"), ("Mode", .str "player")] (by simp) k
  exact ⟨(h "HostName").trans rfl, (h "Mode").trans rfl, (h "Version").trans rfl⟩

/-- C8: `connect` called without a logger (the declared default) crashes
with `AttributeError` before the request result is even consulted — even
on a perfectly healthy response — instead of failing only with the
library's `ApiError`; with a logger supplied, a transport failure does
propagate unchanged. -/
theorem connect_none_logger_crashes :
    (FalconPlayer.connect "192.168.1.10" (some 3) none
        (.response ⟨200, "OK", some (.obj [("HostName", .str "fpp1")])⟩)
      = .error (.attributeError "NoneType object has no attribute debug")) ∧
    (∀ msg, (PyError.attributeError "NoneType object has no attribute debug") ≠ .api msg) ∧
    (FalconPlayer.connect "192.168.1.10" (some 3) (some ()) .exn
      = .error (.api "Request failed")) :=
  ⟨rfl, fun _ h => PyError.noConfusion h, rfl⟩

/-- C10: valid-JSON 2xx catalog responses that lack the expected shape
make `get_endpoints` raise a raw `KeyError` — not the library's uniform
`FalconPlayerApiException` — for each of: missing "endpoints", an entry
missing "endpoint", an entry missing "methods", and a method entry
missing "desc". -/
theorem get_endpoints_malformed_catalog_raw_errors :
    ((⟨"fpp.local", System.init [], none⟩ : FalconPlayer).get_endpoints ""
        (.response ⟨200, "OK", some (.obj [("foo", .num 1)])⟩)
      = .error (.keyError "endpoints")) ∧
    ((⟨"fpp.local", System.init [], none⟩ : FalconPlayer).get_endpoints ""
        (.response ⟨200, "OK", some (.obj [("endpoints",
          .arr [.obj [("methods", .obj [])]])])⟩)
      = .error (.keyError "endpoint")) ∧
    ((⟨"fpp.local", System.init [], none⟩ : FalconPlayer).get_endpoints ""
        (.response ⟨200, "OK", some (.obj [("endpoints",
          .arr [.obj [("endpoint", .str "/a")]])])⟩)
      = .error (.keyError "methods")) ∧
    ((⟨"fpp.local", System.init [], none⟩ : FalconPlayer).get_endpoints ""
        (.response ⟨200, "OK", some (.obj [("endpoints",
          .arr [.obj [("endpoint", .str "/a"), ("methods",
            .obj [("GET", .obj [("description", .str "d")])])]])])⟩)
      = .error (.keyError "desc")) ∧
    (∀ k msg, (PyError.keyError k) ≠ .api msg) :=
  ⟨rfl, rfl, rfl, rfl, fun _ _ h => PyError.noConfusion h⟩

end FPP
